import Mathlib

/-!
# Verification of the `Topmodel_Homogenous` submodel of SpaFHy_v1_Pallas_2D

Shallow embedding of `src/topmodel.py` (class `Topmodel_Homogenous`) over the
real numbers.  The 2-D numpy grids of the source carry `NaN` at cells outside
the catchment mask, and every reduction in the source (`np.nansum`,
`np.nanmean`, boolean indexing) skips those `NaN` entries; we therefore model
the per-cell fields as lists indexed by the *active* cells only, which is
observationally equivalent for every quantity the class computes.  A grid is a
list of rows, each row a list of cells; an active cell carries its
flow-accumulation and slope values, an inactive cell is `none` (= `NaN` under
the mask multiplication `flowacc*cmask`, `slope*cmask`).
-/

namespace SpaFHy

/-- `np.finfo(float).eps`, the double-precision machine epsilon `2⁻⁵²`
(module-level constant `eps` of `topmodel.py`). -/
noncomputable def eps : ℝ := 1 / 2 ^ 52

/-- `np.radians`: degrees to radians, `x·π/180`. -/
noncomputable def radians (d : ℝ) : ℝ := d * Real.pi / 180

/-- `np.percentile(l, q)` with the default linear interpolation, for a
nonempty data list `l` and `q ∈ [0,100]`: with `v` the sorted data and
`n = |l|`, the virtual index is `h = q/100·(n−1)` and the result is
`v⌊h⌋ + (h − ⌊h⌋)·(v⌊h⌋₊₁ − v⌊h⌋)` (numpy raises for an empty input, which the
caller `init` models explicitly; for `q` outside `[0,100]` numpy raises, a
case no caller in the source exercises). -/
noncomputable def percentile (l : List ℝ) (q : ℝ) : ℝ :=
  let v := l.insertionSort (fun a b => a ≤ b)
  let pos := q / 100 * ((l.length : ℝ) - 1)
  let i := (⌊pos⌋).toNat
  v.getD i 0 + (pos - (⌊pos⌋ : ℝ)) * (v.getD (i + 1) 0 - v.getD i 0)

/-- One grid cell: `some (flowacc, slope)` iff the cell is inside the
catchment mask (`cmask = 1`), `none` otherwise (`cmask = NaN`). -/
def Cell := Option (ℝ × ℝ)

/-- Construction-time inputs: the parameter dict `pp` of
`Topmodel_Homogenous.__init__` together with the grids it contains. -/
structure Params where
  dt : ℝ
  ko : ℝ
  m : ℝ
  twi_cutoff : ℝ
  so : ℝ
  grid : List (List Cell)

/-- Persistent attributes of a `Topmodel_Homogenous` instance that its methods
read or write.  (The stored grids `self.a` and `self.slope` are never used by
any method after construction and are omitted; `self.qr` over the full grid is
tracked over active cells, its `NaN` inactive entries being skipped by every
reduction in the source.) -/
@[ext]
structure Topmodel_Homogenous where
  dt : ℝ
  CellArea : ℝ
  CatchmentArea : ℝ
  M : ℝ
  To : ℝ
  xi : List ℝ
  X : ℝ
  Qo : ℝ
  S : ℝ
  qr : List ℝ

/-- The record returned by `run_timestep` (source lines 156–160): it has
exactly these three fields. -/
structure StepResults where
  baseflow : ℝ
  water_closure : ℝ
  saturated_area : ℝ

/-- Everything one call of `run_timestep` produces: the mutated instance
(`self.S`, `self.qr` committed) plus the local values `Qb`, `Qr`, `fsat`,
`mbe` and the returned record. -/
structure StepOut where
  tm' : Topmodel_Homogenous
  Qb : ℝ
  Qr : ℝ
  fsat : ℝ
  mbe : ℝ
  results : StepResults

/-- `self.local_s(Smean)` (lines 93–98): `s = Smean + M·(X − xi)`,
per active cell. -/
def Topmodel_Homogenous.local_s (tm : Topmodel_Homogenous) (Smean : ℝ) : List ℝ :=
  tm.xi.map (fun x => Smean + tm.M * (tm.X - x))

/-- `self.subsurfaceflow()` (lines 100–103): `Qb = Qo·exp(−S/(M+eps))`. -/
noncomputable def Topmodel_Homogenous.subsurfaceflow (tm : Topmodel_Homogenous) : ℝ :=
  tm.Qo * Real.exp (-tm.S / (tm.M + eps))

/-- `self.run_timestep(R)` (lines 105–162), line by line. -/
noncomputable def Topmodel_Homogenous.run_timestep
    (tm : Topmodel_Homogenous) (R : ℝ) : StepOut :=
  -- So = self.S ; s = self.local_s(So)  (line 121, overwritten at line 130)
  let So := tm.S
  let _s0 := tm.local_s So
  -- Qb = self.subsurfaceflow()
  let Qb := tm.subsurfaceflow
  -- S = So + Qb - R ; s = self.local_s(S)
  let S1 := So + Qb - R
  let s := tm.local_s S1
  -- self.qr = -s ; self.qr[self.qr < 0] = 0.0
  let qr := s.map (fun v => if -v < 0 then 0 else -v)
  -- Qr = np.nansum(self.qr)*self.CellArea / self.CatchmentArea
  let Qr := qr.sum * tm.CellArea / tm.CatchmentArea
  -- S = S + Qr ; self.S = S
  let S2 := S1 + Qr
  -- ix = np.where(s <= 0) ; fsat = len(ix[0])*self.CellArea / self.CatchmentArea
  let fsat := ((s.filter (fun v => decide (v ≤ 0))).length : ℝ)
      * tm.CellArea / tm.CatchmentArea
  -- dS = (So - self.S) ; dF = R - Qb - Qr ; mbe = dS - dF
  let mbe := (So - S2) - (R - Qb - Qr)
  { tm' := { tm with S := S2, qr := qr },
    Qb := Qb, Qr := Qr, fsat := fsat, mbe := mbe,
    results := { baseflow := Qb * 1000,        -- [mm d-1]
                 water_closure := mbe * 1000,
                 saturated_area := S2 } }      -- carries self.S, not fsat

/-- Errors construction can raise.  The source itself defines no
`ConfigurationError`; `configurationError` exists in this type only so that
the spec's claimed behaviour is expressible.  `emptyPercentileInput` models
the `IndexError` numpy raises in `np.percentile(xi[xi > 0], ...)` when the
array of strictly positive index values is empty. -/
inductive TopErr where
  | configurationError : TopErr
  | emptyPercentileInput : TopErr
deriving DecidableEq

/-- `self.CellArea = len(~np.isnan(cmask)) * 16` (line 48): `len` of a 2-D
numpy array is its number of rows. -/
def cellAreaOf (pp : Params) : ℝ := (pp.grid.length : ℝ) * 16

/-- The active cells (cells with `cmask == 1`), in grid order. -/
def activeCells (pp : Params) : List (ℝ × ℝ) :=
  pp.grid.flatten.filterMap id

/-- The raw wetness-index values over active cells (line 71):
`xi = log(a / dx / (tan(radians(slope)) + eps))` with `dx = CellArea**0.5`;
at inactive cells the source value is `NaN` and drops out of every
subsequent reduction. -/
noncomputable def xiRawOf (pp : Params) : List ℝ :=
  (activeCells pp).map
    (fun c => Real.log (c.1 / Real.sqrt (cellAreaOf pp) / (Real.tan (radians c.2) + eps)))

/-- `xi[xi > 0]` (line 73): the strictly positive raw index values. -/
noncomputable def posXi (pp : Params) : List ℝ :=
  (xiRawOf pp).filter (fun x => decide (0 < x))

/-- `clim = np.percentile(xi[xi > 0], pp['twi_cutoff'])` (line 73). -/
noncomputable def climOf (pp : Params) : ℝ :=
  percentile (posXi pp) pp.twi_cutoff

/-- `if not S_initial: S_initial = pp['so']` (lines 41–42) — Python
truthiness: `None` and `0.0` are both falsy, so both are replaced by
`pp['so']`; any nonzero float is kept. -/
noncomputable def resolveS (S_initial : Option ℝ) (so : ℝ) : ℝ :=
  match S_initial with
  | none => so
  | some v => if v = 0 then so else v

/-- The successfully constructed instance (lines 41–85, after the
`np.percentile` call has not raised). -/
noncomputable def initOk (pp : Params) (S_initial : Option ℝ) : Topmodel_Homogenous :=
  let S0 := resolveS S_initial pp.so
  let CellArea := cellAreaOf pp
  let nActive := (activeCells pp).length
  let CatchmentArea := (nActive : ℝ) * CellArea
  let To := pp.ko * pp.dt
  let clim := climOf pp
  -- xi[xi > clim] = clim
  let xi := (xiRawOf pp).map (fun x => if clim < x then clim else x)
  -- self.X = 1.0 / self.CatchmentArea*np.nansum(self.xi*self.CellArea)
  let X := 1 / CatchmentArea * ((xi.map (fun v => v * CellArea)).sum)
  let Qo := To * Real.exp (-X)
  let tm0 : Topmodel_Homogenous :=
    { dt := pp.dt, CellArea := CellArea, CatchmentArea := CatchmentArea,
      M := pp.m, To := To, xi := xi, X := X, Qo := Qo, S := 0,
      qr := List.replicate nActive 0 }
  -- s = self.local_s(S_initial) ; s[s < 0] = 0.0 ; self.S = np.nanmean(s)
  let s := (tm0.local_s S0).map (fun v => if v < 0 then 0 else v)
  { tm0 with S := s.sum / (nActive : ℝ) }

/-- `Topmodel_Homogenous.__init__`: the only failure point under the source's
control flow is the `np.percentile` call on `xi[xi > 0]` (line 73), which
raises when that array is empty; everything before it (lines 41–71) is total
and everything after it is total. -/
noncomputable def init (pp : Params) (S_initial : Option ℝ) :
    Except TopErr Topmodel_Homogenous :=
  if posXi pp = [] then .error .emptyPercentileInput
  else .ok (initOk pp S_initial)

/-- A sequence of timesteps, collecting each step's full output
(the driver loop calling `run_timestep` once per timestep). -/
noncomputable def runSeq (tm : Topmodel_Homogenous) : List ℝ → List StepOut
  | [] => []
  | R :: Rs =>
    let out := tm.run_timestep R
    out :: runSeq out.tm' Rs

/-- The instance state after running a sequence of timesteps. -/
noncomputable def runAll (tm : Topmodel_Homogenous) (Rs : List ℝ) : Topmodel_Homogenous :=
  Rs.foldl (fun t R => (t.run_timestep R).tm') tm

/-- The cell-area-weighted average over active cells of a per-cell field,
with the same reduction shape the source uses for `X` (line 77):
`(1/CatchmentArea)·Σ (value·CellArea)`. -/
noncomputable def Topmodel_Homogenous.areaAvg (tm : Topmodel_Homogenous) (l : List ℝ) : ℝ :=
  (l.map (fun v => v * tm.CellArea)).sum / tm.CatchmentArea

/-- Structural consistency facts that `__init__` establishes and that
`run_timestep` never disturbs: a positive cell area, at least one active
cell, `CatchmentArea` = number of active cells × cell area (line 50), and
`X` the area-weighted mean of `xi` (line 77). -/
def Consistent (tm : Topmodel_Homogenous) : Prop :=
  0 < tm.CellArea ∧ tm.xi ≠ [] ∧
  tm.CatchmentArea = (tm.xi.length : ℝ) * tm.CellArea ∧
  tm.X = 1 / tm.CatchmentArea * ((tm.xi.map (fun v => v * tm.CellArea)).sum)

/-! ## Helper lemmas -/

/-- Sum of an affine image: `Σ (a + b·x) = n·a + b·Σ x`. -/
theorem sum_map_affine (l : List ℝ) (a b : ℝ) :
    (l.map (fun x => a + b * x)).sum = (l.length : ℝ) * a + b * l.sum := by
  induction l with
  | nil => simp
  | cons y l ih =>
    simp only [List.map_cons, List.sum_cons, ih, List.length_cons, List.sum_cons,
      Nat.cast_succ]
    ring

/-- Sum of a right-scaled image: `Σ (x·c) = (Σ x)·c`. -/
theorem sum_map_mul_right (l : List ℝ) (c : ℝ) :
    (l.map (fun x => x * c)).sum = l.sum * c := by
  induction l with
  | nil => simp
  | cons y l ih => simp [ih, add_mul]

/-- `np.percentile` of a one-element array is that element, for every `q`. -/
theorem percentile_singleton (x q : ℝ) : percentile [x] q = x := by
  simp [percentile, List.insertionSort, List.orderedInsert]

section Projections

variable (pp : Params) (s0 : Option ℝ)

theorem initOk_dt : (initOk pp s0).dt = pp.dt := rfl

theorem initOk_CellArea : (initOk pp s0).CellArea = cellAreaOf pp := rfl

theorem initOk_CatchmentArea :
    (initOk pp s0).CatchmentArea = ((activeCells pp).length : ℝ) * cellAreaOf pp := rfl

theorem initOk_M : (initOk pp s0).M = pp.m := rfl

theorem initOk_To : (initOk pp s0).To = pp.ko * pp.dt := rfl

theorem initOk_xi :
    (initOk pp s0).xi
      = (xiRawOf pp).map (fun x => if climOf pp < x then climOf pp else x) := rfl

theorem initOk_X :
    (initOk pp s0).X
      = 1 / (((activeCells pp).length : ℝ) * cellAreaOf pp)
        * (((initOk pp s0).xi.map (fun v => v * cellAreaOf pp)).sum) := rfl

theorem initOk_Qo :
    (initOk pp s0).Qo = pp.ko * pp.dt * Real.exp (-(initOk pp s0).X) := rfl

theorem initOk_qr : (initOk pp s0).qr = List.replicate (activeCells pp).length 0 := rfl

theorem initOk_S :
    (initOk pp s0).S
      = (((initOk pp s0).local_s (resolveS s0 pp.so)).map
          (fun v => if v < 0 then 0 else v)).sum / ((activeCells pp).length : ℝ) := rfl

end Projections

/-- Construction succeeds exactly by not hitting the empty-percentile error,
and then returns `initOk`. -/
theorem init_ok_elim {pp : Params} {s0 : Option ℝ} {tm : Topmodel_Homogenous}
    (h : init pp s0 = Except.ok tm) : posXi pp ≠ [] ∧ tm = initOk pp s0 := by
  by_cases hp : posXi pp = []
  · rw [init, if_pos hp] at h
    exact absurd h (by simp)
  · rw [init, if_neg hp] at h
    exact ⟨hp, (Except.ok.inj h).symm⟩

/-- A successful construction yields a nonempty active-cell list. -/
theorem init_active_ne_nil {pp : Params} (hp : posXi pp ≠ []) :
    activeCells pp ≠ [] := by
  intro h
  exact hp (by simp [posXi, xiRawOf, h])

/-- A successful construction establishes the structural consistency facts. -/
theorem init_consistent (pp : Params) (s0 : Option ℝ) (hp : posXi pp ≠ []) :
    Consistent (initOk pp s0) := by
  have hact : activeCells pp ≠ [] := init_active_ne_nil hp
  have hgrid : pp.grid ≠ [] := by
    intro h
    exact hact (by simp [activeCells, h])
  have hlen : (initOk pp s0).xi.length = (activeCells pp).length := by
    rw [initOk_xi, List.length_map, xiRawOf, List.length_map]
  refine ⟨?_, ?_, ?_, ?_⟩
  · rw [initOk_CellArea, cellAreaOf]
    have : 0 < pp.grid.length := List.length_pos.mpr hgrid
    have h16 : (0:ℝ) < 16 := by norm_num
    exact mul_pos (by exact_mod_cast this) h16
  · rw [initOk_xi]
    simp only [ne_eq, List.map_eq_nil_iff]
    intro h
    exact hact (by simpa [xiRawOf] using congrArg List.length h)
  · rw [initOk_CatchmentArea, initOk_CellArea, hlen]
  · rw [initOk_X, initOk_CatchmentArea, initOk_CellArea]

/-- `run_timestep` only rewrites `S` and `qr`; the topographic constants are
untouched, so consistency is preserved across steps. -/
theorem consistent_step {tm : Topmodel_Homogenous} (hc : Consistent tm) (R : ℝ) :
    Consistent ((tm.run_timestep R).tm') := hc

/-- The cell-area-weighted average of the local deficit field recovers the
mean, for any consistent instance. -/
theorem areaAvg_local_s {tm : Topmodel_Homogenous} (hc : Consistent tm) (Smean : ℝ) :
    tm.areaAvg (tm.local_s Smean) = Smean := by
  obtain ⟨hCA, hne, hCat, hX⟩ := hc
  have hn : (0:ℝ) < (tm.xi.length : ℝ) := by
    exact_mod_cast List.length_pos.mpr hne
  have hCatpos : 0 < tm.CatchmentArea := by
    rw [hCat]; exact mul_pos hn hCA
  have hsum : tm.xi.sum * tm.CellArea = tm.X * tm.CatchmentArea := by
    rw [hX, sum_map_mul_right]
    field_simp
  rw [Topmodel_Homogenous.areaAvg, Topmodel_Homogenous.local_s, List.map_map]
  have hfun : ((fun v => v * tm.CellArea) ∘ fun x => Smean + tm.M * (tm.X - x))
      = fun x => ((Smean + tm.M * tm.X) * tm.CellArea) + (-(tm.M * tm.CellArea)) * x := by
    funext x
    simp only [Function.comp_apply]
    ring
  rw [hfun, sum_map_affine, div_eq_iff hCatpos.ne']
  rw [hCat] at hsum ⊢
  linear_combination (-tm.M) * hsum

section StepProjections

variable (tm : Topmodel_Homogenous) (R : ℝ)

theorem run_timestep_Qb : (tm.run_timestep R).Qb = tm.subsurfaceflow := rfl

theorem run_timestep_qr :
    (tm.run_timestep R).tm'.qr
      = (tm.local_s (tm.S + tm.subsurfaceflow - R)).map
          (fun v => if -v < 0 then 0 else -v) := rfl

theorem run_timestep_Qr :
    (tm.run_timestep R).Qr
      = ((tm.run_timestep R).tm'.qr).sum * tm.CellArea / tm.CatchmentArea := rfl

theorem run_timestep_S :
    (tm.run_timestep R).tm'.S
      = (tm.S + tm.subsurfaceflow - R) + (tm.run_timestep R).Qr := rfl

theorem run_timestep_fsat :
    (tm.run_timestep R).fsat
      = (((tm.local_s (tm.S + tm.subsurfaceflow - R)).filter
            (fun v => decide (v ≤ 0))).length : ℝ)
        * tm.CellArea / tm.CatchmentArea := rfl

theorem run_timestep_xi : (tm.run_timestep R).tm'.xi = tm.xi := rfl

theorem run_timestep_saturated_area :
    (tm.run_timestep R).results.saturated_area = (tm.run_timestep R).tm'.S := rfl

end StepProjections

/-! ## Claims -/

/-- Claim C1: `run_timestep` computes baseflow from the pre-update state only,
`Qb = Qo·exp(−S_prev/(M+eps))`; forms the provisional state
`S' = S_prev + Qb − R`; derives the per-cell return flow
`qr_i = max(0, −(S' + M·(X − xi_i)))` over active cells; computes `Qr` as the
cell-area-weighted sum of `qr` divided by the catchment area; and commits the
final state `S = S' + Qr`. -/
theorem run_timestep_order (tm : Topmodel_Homogenous) (R : ℝ) :
    (tm.run_timestep R).Qb = tm.Qo * Real.exp (-tm.S / (tm.M + eps)) ∧
    (tm.run_timestep R).tm'.qr
      = tm.xi.map (fun x =>
          max 0 (-((tm.S + tm.Qo * Real.exp (-tm.S / (tm.M + eps)) - R)
            + tm.M * (tm.X - x)))) ∧
    (tm.run_timestep R).Qr
      = ((tm.run_timestep R).tm'.qr).sum * tm.CellArea / tm.CatchmentArea ∧
    (tm.run_timestep R).tm'.S
      = (tm.S + tm.Qo * Real.exp (-tm.S / (tm.M + eps)) - R)
        + (tm.run_timestep R).Qr := by
  have hqr : (tm.run_timestep R).tm'.qr
      = tm.xi.map (fun x =>
          max 0 (-((tm.S + tm.Qo * Real.exp (-tm.S / (tm.M + eps)) - R)
            + tm.M * (tm.X - x)))) := by
    show (tm.local_s (tm.S + tm.subsurfaceflow - R)).map
        (fun v => if -v < 0 then 0 else -v) = _
    rw [Topmodel_Homogenous.local_s, List.map_map]
    refine List.map_congr_left (fun x _ => ?_)
    show (if -(tm.S + tm.subsurfaceflow - R + tm.M * (tm.X - x)) < 0 then 0
        else -(tm.S + tm.subsurfaceflow - R + tm.M * (tm.X - x))) = _
    rw [Topmodel_Homogenous.subsurfaceflow]
    rcases lt_or_le (-(tm.S + tm.Qo * Real.exp (-tm.S / (tm.M + eps)) - R
        + tm.M * (tm.X - x))) 0 with h | h
    · rw [if_pos h, max_eq_left h.le]
    · rw [if_neg (not_lt.mpr h), max_eq_right h]
  exact ⟨rfl, hqr, rfl, rfl⟩

/-- Claim C2: for every starting state and every sequence of recharge values
(negative and zero included), the per-step mass-balance residual
`(S_prev − S_new) − (R − Qb − Qr)` computed by `run_timestep` is exactly zero
at every step. -/
theorem mass_balance_residual_zero (tm : Topmodel_Homogenous) (Rs : List ℝ) :
    List.Forall (fun out => out.mbe = 0) (runSeq tm Rs) := by
  induction Rs generalizing tm with
  | nil => trivial
  | cons R Rs ih =>
    rw [runSeq, List.forall_cons]
    refine ⟨?_, ih _⟩
    show (tm.S - ((tm.S + tm.subsurfaceflow - R)
        + (tm.run_timestep R).Qr)) - (R - tm.subsurfaceflow - (tm.run_timestep R).Qr) = 0
    ring

/-- Claim C10: because `__init__` guards with Python truthiness
(`if not S_initial`) instead of a comparison with `None`, constructing with
the explicit argument `S_initial = 0.0` behaves exactly like omitting it:
the zero is discarded and `pp['so']` is used instead. -/
theorem s_initial_zero_ignored (pp : Params) :
    init pp (some 0) = init pp none := by
  simp [init, initOk, resolveS]

/-- Claim C3: for every scalar `Smean`, the cell-area-weighted average over
active cells of the local deficit field `local_s(Smean) = Smean + M·(X − xi)`
of a constructed instance equals `Smean`, because `X` (line 77) is the
area-weighted mean of the same clamped index field. -/
theorem local_s_area_mean (pp : Params) (s0 : Option ℝ) (tm : Topmodel_Homogenous)
    (Smean : ℝ) (h : init pp s0 = Except.ok tm) :
    tm.areaAvg (tm.local_s Smean) = Smean := by
  obtain ⟨hp, rfl⟩ := init_ok_elim h
  exact areaAvg_local_s (init_consistent pp s0 hp) Smean

/-- For a consistent instance the state committed by `run_timestep` is
nonnegative, whatever the previous state and the recharge: the mean of the
local field at the provisional state `S1` is `S1` itself, so the return flow
`Qr` (a mean of `max(0, −s_i)`) is at least `max(0, −S1)`. -/
theorem step_S_nonneg (tm : Topmodel_Homogenous) (R : ℝ) (hc : Consistent tm) :
    0 ≤ (tm.run_timestep R).tm'.S := by
  obtain ⟨hCA, hne, hCat, hX⟩ := hc
  have hn : (0:ℝ) < (tm.xi.length : ℝ) := by
    exact_mod_cast List.length_pos.mpr hne
  show 0 ≤ (tm.S + tm.subsurfaceflow - R)
      + ((tm.local_s (tm.S + tm.subsurfaceflow - R)).map
          (fun v => if -v < 0 then 0 else -v)).sum * tm.CellArea / tm.CatchmentArea
  set S1 := tm.S + tm.subsurfaceflow - R with hS1def
  set g : ℝ → ℝ := fun v => if -v < 0 then 0 else -v with hgdef
  set s := tm.local_s S1 with hsdef
  -- pointwise facts about the clamping
  have hg0 : ∀ v : ℝ, 0 ≤ g v := by
    intro v
    rw [hgdef]
    dsimp only
    split_ifs with h
    · exact le_refl 0
    · exact not_lt.mp h
  have hgv : ∀ v : ℝ, -v ≤ g v := by
    intro v
    rw [hgdef]
    dsimp only
    split_ifs with h
    · exact h.le
    · exact le_refl (-v)
  -- sum of the clamped index field
  have hCatpos : 0 < tm.CatchmentArea := by
    rw [hCat]; exact mul_pos hn hCA
  have hsum_xi : tm.xi.sum = tm.X * (tm.xi.length : ℝ) := by
    have hCatne : tm.CatchmentArea ≠ 0 := hCatpos.ne'
    have h1 : tm.X * tm.CatchmentArea = tm.xi.sum * tm.CellArea := by
      rw [hX, sum_map_mul_right]
      field_simp
    rw [hCat] at h1
    have h2 : (tm.X * (tm.xi.length : ℝ)) * tm.CellArea = tm.xi.sum * tm.CellArea := by
      rw [← h1]; ring
    exact (mul_right_cancel₀ hCA.ne' h2).symm
  -- mean of the local field at S1 is S1
  have hsum_s : s.sum = (tm.xi.length : ℝ) * S1 := by
    rw [hsdef, Topmodel_Homogenous.local_s]
    have hfun : (fun x => S1 + tm.M * (tm.X - x))
        = fun x => (S1 + tm.M * tm.X) + (-tm.M) * x := by
      funext x; ring
    rw [hfun, sum_map_affine, hsum_xi]
    ring
  have hqr_nonneg : 0 ≤ (s.map g).sum :=
    List.sum_nonneg (by
      intro v hv
      obtain ⟨w, _, rfl⟩ := List.mem_map.mp hv
      exact hg0 w)
  have hqr_ge : -(s.sum) ≤ (s.map g).sum := by
    have hmaps : (s.map (fun v => -v)).sum ≤ (s.map g).sum :=
      List.sum_le_sum (fun v _ => hgv v)
    have hneg : (s.map (fun v : ℝ => -v)).sum = -(s.sum) := by
      have hfun : (fun v : ℝ => -v) = fun x => 0 + (-1) * x := by
        funext x; ring
      rw [hfun, sum_map_affine]
      ring
    linarith
  have hQr : (s.map g).sum * tm.CellArea / tm.CatchmentArea
      = (s.map g).sum / (tm.xi.length : ℝ) := by
    rw [hCat]
    field_simp
    ring
  rw [hQr]
  rcases le_or_lt 0 S1 with h | h
  · have : 0 ≤ (s.map g).sum / (tm.xi.length : ℝ) := div_nonneg hqr_nonneg hn.le
    linarith
  · have h2 : -S1 ≤ (s.map g).sum / (tm.xi.length : ℝ) := by
      rw [le_div_iff₀ hn]
      calc -S1 * (tm.xi.length : ℝ) = -(s.sum) := by rw [hsum_s]; ring
        _ ≤ (s.map g).sum := hqr_ge
    linarith

/-- Consistency is preserved along any run. -/
theorem runAll_consistent (Rs : List ℝ) :
    ∀ tm : Topmodel_Homogenous, Consistent tm → Consistent (runAll tm Rs) := by
  induction Rs with
  | nil => exact fun tm hc => hc
  | cons R Rs ih =>
    intro tm hc
    exact ih _ (consistent_step hc R)

/-- The state stays nonnegative along any run of a consistent instance. -/
theorem runAll_S_nonneg (Rs : List ℝ) :
    ∀ tm : Topmodel_Homogenous, Consistent tm → 0 ≤ tm.S → 0 ≤ (runAll tm Rs).S := by
  induction Rs with
  | nil => exact fun tm _ h => h
  | cons R Rs ih =>
    intro tm hc hS
    exact ih _ (consistent_step hc R) (step_S_nonneg tm R hc)

/-- Claim C4: the persistent state `S` is nonnegative throughout a run — the
initial `S` produced at construction (mean of the locally clamped-at-zero
deficit field) is nonnegative, and the state committed by each subsequent
`run_timestep` stays nonnegative for every real recharge sequence. -/
theorem state_nonneg (pp : Params) (s0 : Option ℝ) (tm : Topmodel_Homogenous)
    (h : init pp s0 = Except.ok tm) :
    0 ≤ tm.S ∧ ∀ Rs : List ℝ, 0 ≤ (runAll tm Rs).S := by
  obtain ⟨hp, rfl⟩ := init_ok_elim h
  have hS0 : 0 ≤ (initOk pp s0).S := by
    rw [initOk_S]
    apply div_nonneg _ (Nat.cast_nonneg _)
    apply List.sum_nonneg
    intro v hv
    obtain ⟨w, _, rfl⟩ := List.mem_map.mp hv
    split_ifs with hw
    · exact le_refl 0
    · exact not_lt.mp hw
  exact ⟨hS0, fun Rs => runAll_S_nonneg Rs _ (init_consistent pp s0 hp) hS0⟩

/-- A concrete instance with `Qo = 0`, on which one timestep gives an updated
deficit of `0` but a saturated-area fraction of `1`, separating the two
quantities. -/
def tmA : Topmodel_Homogenous :=
  { dt := 1, CellArea := 16, CatchmentArea := 16, M := 1, To := 0,
    xi := [0], X := 0, Qo := 0, S := 0, qr := [0] }

/-- Claim C5: the record returned by `run_timestep` carries exactly
`baseflow = Qb·10³`, `water_closure = mbe·10³`, and a field *named*
`saturated_area` that actually carries the updated mean deficit `self.S`
(meters) — not the internally computed saturated-area fraction `fsat`
(shown to differ from it on the concrete instance `tmA`; `fsat` and the
`qr` field are computed each step but absent from the record, whose type
has exactly the three fields above). -/
theorem results_record_fields :
    (∀ (tm : Topmodel_Homogenous) (R : ℝ),
      (tm.run_timestep R).results.baseflow = (tm.run_timestep R).Qb * 1000 ∧
      (tm.run_timestep R).results.water_closure = (tm.run_timestep R).mbe * 1000 ∧
      (tm.run_timestep R).results.saturated_area = (tm.run_timestep R).tm'.S) ∧
    (tmA.run_timestep 0).results.saturated_area ≠ (tmA.run_timestep 0).fsat := by
  refine ⟨fun tm R => ⟨rfl, rfl, rfl⟩, ?_⟩
  have hQb : tmA.subsurfaceflow = 0 := by
    simp [Topmodel_Homogenous.subsurfaceflow, tmA]
  have hS : (tmA.run_timestep 0).results.saturated_area = 0 := by
    rw [run_timestep_saturated_area, run_timestep_S, run_timestep_Qr, run_timestep_qr,
      hQb]
    simp [Topmodel_Homogenous.local_s, tmA]
  have hfsat : (tmA.run_timestep 0).fsat = 1 := by
    rw [run_timestep_fsat, hQb]
    simp [Topmodel_Homogenous.local_s, tmA, List.filter]
  rw [hS, hfsat]
  norm_num

/-- The instance refuting unconditional monotonicity of the baseflow law:
`M = −2` makes `M + eps` negative, flipping the sign inside the
exponential. -/
def tmB : Topmodel_Homogenous :=
  { dt := 1, CellArea := 16, CatchmentArea := 16, M := -2, To := 1,
    xi := [0], X := 0, Qo := 1, S := 0, qr := [0] }

/-- Claim C7, counterexample: with `Qo = 1 > 0` but `M = −2` (so
`M + eps < 0`), the baseflow `Qb = Qo·exp(−S/(M+eps))` strictly *increases*
from state `0` to state `2 − eps`; the claimed precondition `Qo > 0` alone
does not make `Qb` strictly decreasing in the state. -/
theorem subsurfaceflow_not_strictly_decreasing :
    0 < tmB.Qo ∧ tmB.S < ({ tmB with S := 2 - eps } : Topmodel_Homogenous).S ∧
    tmB.subsurfaceflow < ({ tmB with S := 2 - eps } : Topmodel_Homogenous).subsurfaceflow := by
  have hne : (-2 : ℝ) + eps ≠ 0 := by norm_num [eps]
  have h1 : tmB.subsurfaceflow = 1 := by
    simp [Topmodel_Homogenous.subsurfaceflow, tmB]
  have h2 : ({ tmB with S := 2 - eps } : Topmodel_Homogenous).subsurfaceflow
      = Real.exp 1 := by
    show (1 : ℝ) * Real.exp (-(2 - eps) / (-2 + eps)) = Real.exp 1
    rw [one_mul, show -(2 - eps) / (-2 + eps) = 1 from by
      rw [neg_sub, show eps - 2 = -2 + eps from by ring]
      exact div_self hne]
  refine ⟨by norm_num [tmB], ?_, ?_⟩
  · show (0:ℝ) < 2 - eps
    norm_num [eps]
  · rw [h1, h2]
    calc (1:ℝ) = Real.exp 0 := Real.exp_zero.symm
      _ < Real.exp 1 := Real.exp_lt_exp.mpr one_pos

/-- Claim C7, amended: under the additional hypothesis `0 < M + eps`
(true for every physically meaningful `M ≥ 0`), the baseflow is a strictly
decreasing function of the state whenever `Qo > 0`. -/
theorem subsurfaceflow_strict_anti (tm : Topmodel_Homogenous) (Sa Sb : ℝ)
    (hQo : 0 < tm.Qo) (hM : 0 < tm.M + eps) (h : Sa < Sb) :
    ({ tm with S := Sb } : Topmodel_Homogenous).subsurfaceflow
      < ({ tm with S := Sa } : Topmodel_Homogenous).subsurfaceflow := by
  show tm.Qo * Real.exp (-Sb / (tm.M + eps)) < tm.Qo * Real.exp (-Sa / (tm.M + eps))
  apply mul_lt_mul_of_pos_left _ hQo
  apply Real.exp_lt_exp.mpr
  apply div_lt_div_of_pos_right (neg_lt_neg h) hM

/-- The instance used to witness the amended baseflow monotonicity. -/
def tmC : Topmodel_Homogenous :=
  { dt := 1, CellArea := 16, CatchmentArea := 16, M := 1, To := 1,
    xi := [0], X := 0, Qo := 1, S := 0, qr := [0] }

theorem subsurfaceflow_strict_anti_witness :
    0 < tmC.Qo ∧ 0 < tmC.M + eps ∧ (0:ℝ) < 1 ∧
    ({ tmC with S := 1 } : Topmodel_Homogenous).subsurfaceflow
      < ({ tmC with S := 0 } : Topmodel_Homogenous).subsurfaceflow :=
  ⟨by norm_num [tmC], by norm_num [tmC, eps], by norm_num,
    subsurfaceflow_strict_anti tmC 0 1 (by norm_num [tmC])
      (by norm_num [tmC, eps]) (by norm_num)⟩

/-- Claim C9: for every consistent instance and every real recharge, the
saturated-area fraction computed in `run_timestep` (count of active cells
whose local deficit from the provisional state is `≤ 0`, over the count of
active cells) lies in `[0, 1]`; it is `1` when every active cell's local
value is `≤ 0` and `0` when none is. -/
theorem fsat_bounds (tm : Topmodel_Homogenous) (R : ℝ) (hc : Consistent tm) :
    (0 ≤ (tm.run_timestep R).fsat ∧ (tm.run_timestep R).fsat ≤ 1) ∧
    ((∀ v ∈ tm.local_s (tm.S + tm.subsurfaceflow - R), v ≤ 0) →
      (tm.run_timestep R).fsat = 1) ∧
    ((∀ v ∈ tm.local_s (tm.S + tm.subsurfaceflow - R), 0 < v) →
      (tm.run_timestep R).fsat = 0) := by
  obtain ⟨hCA, hne, hCat, _⟩ := hc
  have hn : (0:ℝ) < (tm.xi.length : ℝ) := by
    exact_mod_cast List.length_pos.mpr hne
  have hCatpos : 0 < tm.CatchmentArea := by
    rw [hCat]; exact mul_pos hn hCA
  set s := tm.local_s (tm.S + tm.subsurfaceflow - R) with hsdef
  have hlen : s.length = tm.xi.length := List.length_map _ _
  rw [run_timestep_fsat, ← hsdef]
  refine ⟨⟨?_, ?_⟩, ?_, ?_⟩
  · exact div_nonneg (mul_nonneg (Nat.cast_nonneg _) hCA.le) hCatpos.le
  · rw [div_le_one hCatpos, hCat]
    apply mul_le_mul_of_nonneg_right _ hCA.le
    have : (s.filter (fun v => decide (v ≤ 0))).length ≤ tm.xi.length :=
      le_of_le_of_eq (List.length_filter_le _ _) hlen
    exact_mod_cast this
  · intro h
    have hfil : s.filter (fun v => decide (v ≤ 0)) = s :=
      List.filter_eq_self.mpr (fun a ha => decide_eq_true (h a ha))
    rw [hfil, hlen, hCat]
    exact div_self (mul_pos hn hCA).ne'
  · intro h
    have hfil : s.filter (fun v => decide (v ≤ 0)) = [] := by
      apply List.filter_eq_nil_iff.mpr
      intro a ha
      simp only [decide_eq_true_eq, not_le]
      exact h a ha
    rw [hfil]
    simp

/-- The consistent instance used to witness the saturated-fraction bounds. -/
def tmD : Topmodel_Homogenous :=
  { dt := 1, CellArea := 16, CatchmentArea := 16, M := 1, To := 1,
    xi := [0], X := 0, Qo := 1, S := 0, qr := [0] }

theorem fsat_bounds_witness :
    Consistent tmD ∧
    ((0 ≤ (tmD.run_timestep 0).fsat ∧ (tmD.run_timestep 0).fsat ≤ 1) ∧
     ((∀ v ∈ tmD.local_s (tmD.S + tmD.subsurfaceflow - 0), v ≤ 0) →
       (tmD.run_timestep 0).fsat = 1) ∧
     ((∀ v ∈ tmD.local_s (tmD.S + tmD.subsurfaceflow - 0), 0 < v) →
       (tmD.run_timestep 0).fsat = 0)) := by
  have hc : Consistent tmD := by
    refine ⟨by norm_num [tmD], by simp [tmD], by norm_num [tmD], by norm_num [tmD]⟩
  exact ⟨hc, fsat_bounds tmD 0 hc⟩

/-- A parameter set whose grid has one row and zero active cells. -/
def ppZero : Params :=
  { dt := 1, ko := 1, m := 1, twi_cutoff := 50, so := 1, grid := [[none]] }

/-- Claim C6, counterexample: constructing with zero active cells does *not*
raise a `ConfigurationError` — the source defines no such error; construction
fails because `np.percentile` is applied to the empty array `xi[xi > 0]`
(a numpy `IndexError`, modelled as `emptyPercentileInput`). -/
theorem zero_active_no_configuration_error :
    init ppZero none = Except.error TopErr.emptyPercentileInput ∧
    TopErr.emptyPercentileInput ≠ TopErr.configurationError := by
  have hact : activeCells ppZero = [] := rfl
  have hpos : posXi ppZero = [] := by simp [posXi, xiRawOf, hact]
  exact ⟨by rw [init, if_pos hpos], by decide⟩

/-- Claim C6, amended: with zero active cells, construction halts before any
timestep, but with the library error raised by taking a percentile of the
empty positive-index array, not with a `ConfigurationError`. -/
theorem zero_active_percentile_error (pp : Params) (s0 : Option ℝ)
    (h : activeCells pp = []) :
    init pp s0 = Except.error TopErr.emptyPercentileInput := by
  have hpos : posXi pp = [] := by simp [posXi, xiRawOf, h]
  rw [init, if_pos hpos]

theorem zero_active_percentile_error_witness :
    activeCells ppZero = [] ∧
    init ppZero none = Except.error TopErr.emptyPercentileInput :=
  ⟨rfl, zero_active_percentile_error ppZero none rfl⟩

/-- Claim C8: on every successfully constructed instance, each stored clamped
index value is at most `clim`, the configured percentile of the strictly
positive pre-clamp index values; and `run_timestep` never modifies the `xi`
field. -/
theorem xi_cutoff_invariant (pp : Params) (s0 : Option ℝ) (tm : Topmodel_Homogenous)
    (h : init pp s0 = Except.ok tm) :
    (∀ v ∈ tm.xi, v ≤ climOf pp) ∧ ∀ R : ℝ, (tm.run_timestep R).tm'.xi = tm.xi := by
  obtain ⟨hp, rfl⟩ := init_ok_elim h
  refine ⟨?_, fun R => rfl⟩
  rw [initOk_xi]
  intro v hv
  obtain ⟨x, _, rfl⟩ := List.mem_map.mp hv
  split_ifs with hx
  · exact le_refl _
  · exact not_lt.mp hx

/-! ## A concrete successful construction

One row, one active cell with `flowacc = 8·eps` and zero slope, so that the
raw index is `log((8·eps/4)/(0 + eps)) = log 2 > 0`; with `twi_cutoff = 50`
the percentile of the singleton positive list is `log 2` itself and clamping
is the identity. -/

noncomputable def ppE : Params :=
  { dt := 1, ko := 1, m := 1, twi_cutoff := 50, so := 2,
    grid := [[some (8 * eps, 0)]] }

noncomputable def tmE : Topmodel_Homogenous :=
  { dt := 1, CellArea := 16, CatchmentArea := 16, M := 1, To := 1,
    xi := [Real.log 2], X := Real.log 2, Qo := Real.exp (-Real.log 2), S := 2,
    qr := [0] }

theorem ppE_active : activeCells ppE = [(8 * eps, 0)] := rfl

theorem ppE_cellArea : cellAreaOf ppE = 16 := by
  norm_num [cellAreaOf, ppE]

theorem ppE_xiRaw : xiRawOf ppE = [Real.log 2] := by
  have hsqrt : Real.sqrt (cellAreaOf ppE) = 4 := by
    rw [ppE_cellArea, show (16:ℝ) = 4 ^ 2 by norm_num]
    exact Real.sqrt_sq (by norm_num)
  have harg : 8 * eps / 4 / (Real.tan (radians 0) + eps) = 2 := by
    rw [radians, zero_mul, zero_div, Real.tan_zero, zero_add]
    norm_num [eps]
  rw [xiRawOf, ppE_active]
  simp only [List.map_cons, List.map_nil]
  rw [hsqrt, harg]

theorem ppE_pos : posXi ppE = [Real.log 2] := by
  have h2 : (0:ℝ) < Real.log 2 := Real.log_pos (by norm_num)
  rw [posXi, ppE_xiRaw]
  simp [List.filter_cons, h2]

theorem ppE_clim : climOf ppE = Real.log 2 := by
  rw [climOf, ppE_pos, percentile_singleton]

theorem init_example : init ppE none = Except.ok tmE := by
  have hpos : posXi ppE ≠ [] := by
    rw [ppE_pos]; exact List.cons_ne_nil _ _
  rw [init, if_neg hpos]
  have hxi : (initOk ppE none).xi = [Real.log 2] := by
    rw [initOk_xi, ppE_xiRaw, ppE_clim]
    simp
  have hX : (initOk ppE none).X = Real.log 2 := by
    rw [initOk_X, hxi, ppE_cellArea, ppE_active]
    simp only [List.map_cons, List.map_nil, List.sum_cons, List.sum_nil,
      List.length_cons, List.length_nil, Nat.cast_one, Nat.cast_zero]
    ring
  have hls : (initOk ppE none).local_s 2 = [2] := by
    rw [Topmodel_Homogenous.local_s, hxi, initOk_M, hX]
    simp [ppE]
  congr 1
  refine Topmodel_Homogenous.ext ?_ ?_ ?_ ?_ ?_ ?_ ?_ ?_ ?_ ?_
  · rfl
  · rw [initOk_CellArea]; exact ppE_cellArea
  · rw [initOk_CatchmentArea, ppE_cellArea, ppE_active]
    norm_num [tmE]
  · rfl
  · rw [initOk_To]; norm_num [ppE, tmE]
  · exact hxi
  · exact hX
  · rw [initOk_Qo, hX]
    norm_num [ppE, tmE]
  · rw [initOk_S, show resolveS none ppE.so = 2 from rfl, hls, ppE_active]
    norm_num [tmE]
  · rw [initOk_qr, ppE_active]
    rfl

theorem local_s_area_mean_witness :
    init ppE none = Except.ok tmE ∧ tmE.areaAvg (tmE.local_s 7) = 7 :=
  ⟨init_example, local_s_area_mean ppE none tmE 7 init_example⟩

theorem state_nonneg_witness :
    init ppE none = Except.ok tmE ∧
    (0 ≤ tmE.S ∧ ∀ Rs : List ℝ, 0 ≤ (runAll tmE Rs).S) :=
  ⟨init_example, state_nonneg ppE none tmE init_example⟩

theorem xi_cutoff_invariant_witness :
    init ppE none = Except.ok tmE ∧
    ((∀ v ∈ tmE.xi, v ≤ climOf ppE) ∧
     ∀ R : ℝ, (tmE.run_timestep R).tm'.xi = tmE.xi) :=
  ⟨init_example, xi_cutoff_invariant ppE none tmE init_example⟩

end SpaFHy
